import Mathlib

/-!
Verification of the sequential review-pipeline core of the application:
the ordered list of agent step configurations, the per-step result store,
the resource accounting (mana pool and experience counter), the execution
engine, and the settings serializer.

The definitions below are a shallow embedding of the TypeScript source:
the component ReviewPipeline (state, handleUpdateConfig,
handleDownloadSettings, handleUploadSettings, handleSaveOutput,
executeAgent and the run button) together with updateStats from App.tsx.
JavaScript numbers are modelled as Int (for the counters, which only see
integer arithmetic) and Rat (for config fields carried through JSON);
the results map is a total function from step id to an optional record;
the asynchronous provider call is modelled by passing its outcome as an
explicit argument, which flattens one run into one atomic transition.
-/

namespace FdaPipeline

/-- The lifecycle states a step result can show; "idle" is the display
default for a step that has no stored result yet. -/
inductive StatusV where
  | idle
  | running
  | completed
  | error
deriving DecidableEq

/-- One stored step result. In the source this is a plain object whose
fields may be absent: status is absent exactly when the record was created
by handleSaveOutput for a step that had no stored result, and the error and
timestamp fields are absent unless the writing transition set them, so all
three are wrapped in Option. -/
structure AgentResult where
  status : Option StatusV
  output : String
  error : Option String
  timestamp : Option String
deriving DecidableEq

/-- One step configuration, as in the AgentConfig interface used by the
component. maxTokens and temperature are JavaScript numbers; they are
modelled as Rat so that the JSON round trip is exact. -/
structure AgentConfig where
  id : String
  name : String
  description : String
  provider : String
  model : String
  maxTokens : Rat
  temperature : Rat
  systemPrompt : String
deriving DecidableEq

/-- One entry of the static model table AI_MODELS (id, display name and
provider). The table itself lives in a constants module that is not part
of the staged sources, so the functions below take the table as an
argument instead of fixing its entries. -/
structure ModelInfo where
  id : String
  name : String
  provider : String
deriving DecidableEq

/-- The mutable state owned by the pipeline core: the ordered config list
and the results map from ReviewPipeline, and the two counters (mana pool
and experience) from the App state. -/
structure PipelineState where
  agentConfigs : List AgentConfig
  results : String → Option AgentResult
  mana : Int
  experience : Int

/-- updateStats from App.tsx: mana is lowered by the cost and clamped at
zero with Math.max, experience is raised by the gain. -/
def updateStats (s : PipelineState) (manaCost xpGain : Int) : PipelineState :=
  { s with
    mana := max 0 (s.mana - manaCost)
    experience := s.experience + xpGain }

/-- The outcome of the external generateText call, passed to the engine as
an argument: a response string (the empty string standing for an empty or
missing response) or a thrown transport error with its message. -/
inductive ProviderOutcome where
  | success (response : String)
  | failure (msg : String)
deriving DecidableEq

/-- The way one invocation of executeAgent ends, labelling the branch the
source takes (its log message and error taxonomy). invalidIndex models the
TypeError raised by indexing past the config list, which writes no state;
ignoredRunning is produced by the run-button wrapper clickRun below. -/
inductive RunOutcome where
  | invalidIndex
  | dependencyError
  | validationError
  | resourceError
  | completed
  | providerError (msg : String)
  | ignoredRunning
deriving DecidableEq

/-- The trim applied by the input validation: leading and trailing
whitespace characters removed, modelled over the character list of the
string with the whitespace set of Char.isWhitespace. -/
def jsTrim (s : String) : String :=
  String.mk (((s.data.dropWhile Char.isWhitespace).reverse.dropWhile
    Char.isWhitespace).reverse)

/-- Input resolution, lines 105 to 116 of executeAgent: step 0 reads the
global input; a later step reads the stored output of the previous step
and fails (none) when that result is absent or its output is the empty
string. The stored status is not consulted. -/
def resolveInput (globalInput : String) (s : PipelineState) (index : Nat) : Option String :=
  if index = 0 then
    some globalInput
  else
    match s.agentConfigs[index - 1]? with
    | none => none
    | some prevCfg =>
      match s.results prevCfg.id with
      | none => none
      | some prevResult =>
        if prevResult.output = "" then none else some prevResult.output

/-- The stored output for a step id, with the empty string for a missing
record: this models the expression that reads the previous output with
a fallback to the empty string (a stored empty output and the fallback
coincide, so a plain projection with default is exact). -/
def storedOutput (s : PipelineState) (id : String) : String :=
  match s.results id with
  | some r => r.output
  | none => ""

/-- The record written when a step is marked running: status running, the
previous output kept, no error and no timestamp field. -/
def runningRecord (prevOut : String) : AgentResult :=
  { status := some StatusV.running, output := prevOut, error := none, timestamp := none }

/-- The record written on success: status completed, the response as
output, a fresh timestamp, no error field. -/
def completedRecord (response now : String) : AgentResult :=
  { status := some StatusV.completed, output := response, error := none,
    timestamp := some now }

/-- The record written on failure: status error, the previous output kept,
the failure message, no timestamp field. -/
def errorRecord (prevOut msg : String) : AgentResult :=
  { status := some StatusV.error, output := prevOut, error := some msg, timestamp := none }

/-- Writing one key of the results map, as the functional setResults
updates do in the source. -/
def setResult (res : String → Option AgentResult) (id : String) (r : AgentResult) :
    String → Option AgentResult :=
  fun k => if k = id then some r else res k

/-- executeAgent, lines 99 to 164 of the component, as one atomic
transition given the provider outcome: resolve the input, validate it,
check and debit the mana pool, mark the step running, then write the
completed or error record and credit experience on success. Indexing past
the config list raises a TypeError in the source before any result is
written; that is modelled as the invalidIndex outcome with the state
unchanged. -/
def executeAgent (globalInput : String) (provider : ProviderOutcome) (now : String)
    (s : PipelineState) (index : Nat) : PipelineState × RunOutcome :=
  match s.agentConfigs[index]? with
  | none => (s, RunOutcome.invalidIndex)
  | some config =>
    match resolveInput globalInput s index with
    | none => (s, RunOutcome.dependencyError)
    | some inputContent =>
      if jsTrim inputContent = "" then
        (s, RunOutcome.validationError)
      else if s.mana < 20 then
        (s, RunOutcome.resourceError)
      else
        let s1 := updateStats s 20 0
        let prevOut := storedOutput s1 config.id
        let s2 : PipelineState :=
          { s1 with results := setResult s1.results config.id (runningRecord prevOut) }
        match provider with
        | ProviderOutcome.success response =>
          if response = "" then
            let res3 := setResult s2.results config.id
              (errorRecord (storedOutput s2 config.id) "Empty response")
            ({ s2 with results := res3 }, RunOutcome.providerError "Empty response")
          else
            let res3 := setResult s2.results config.id (completedRecord response now)
            (updateStats { s2 with results := res3 } 0 50, RunOutcome.completed)
        | ProviderOutcome.failure msg =>
          let res3 := setResult s2.results config.id
            (errorRecord (storedOutput s2 config.id) msg)
          ({ s2 with results := res3 }, RunOutcome.providerError msg)

/-- The run button of the rendered step (lines 249 to 261): it is disabled
exactly while the displayed result status is running (a step with no
stored record displays the idle default), so a click reaches executeAgent
only outside that state. -/
def clickRun (globalInput : String) (provider : ProviderOutcome) (now : String)
    (s : PipelineState) (index : Nat) : PipelineState × RunOutcome :=
  match s.agentConfigs[index]? with
  | none => (s, RunOutcome.invalidIndex)
  | some config =>
    let shownStatus : Option StatusV :=
      match s.results config.id with
      | some r => r.status
      | none => some StatusV.idle
    if shownStatus = some StatusV.running then
      (s, RunOutcome.ignoredRunning)
    else
      executeAgent globalInput provider now s index

/-- handleSaveOutput, lines 90 to 95: the stored record for the step keeps
all its fields except output, which is replaced; for a step with no stored
record the spread of undefined leaves a record holding only the output. -/
def handleSaveOutput (res : String → Option AgentResult) (agentId newText : String) :
    String → Option AgentResult :=
  fun k =>
    if k = agentId then
      some (match res agentId with
        | some r => { r with output := newText }
        | none => { status := none, output := newText, error := none, timestamp := none })
    else res k

/-- handleSaveOutput lifted to the full state: it only goes through
setResults, so the config list and both counters are untouched. -/
def overrideOutput (s : PipelineState) (agentId newText : String) : PipelineState :=
  { s with results := handleSaveOutput s.results agentId newText }

/-- The tagged field update passed to handleUpdateConfig: one constructor
per field of AgentConfig, with the value the source would receive. -/
inductive FieldUpdate where
  | id (v : String)
  | name (v : String)
  | description (v : String)
  | provider (v : String)
  | model (v : String)
  | maxTokens (v : Rat)
  | temperature (v : Rat)
  | systemPrompt (v : String)

/-- The provider recomputed for a model id, lines 52 to 53: the first
table entry with that id gives its provider, with the fallback gemini when
no entry is found or the found provider string is falsy (empty). -/
def providerForModel (models : List ModelInfo) (v : String) : String :=
  match models.find? (fun m => m.id == v) with
  | some m => if m.provider = "" then "gemini" else m.provider
  | none => "gemini"

/-- The update applied to the one matching config: writing model also
overwrites provider via the table; every other field is a plain write. -/
def applyFieldUpdate (models : List ModelInfo) (u : FieldUpdate) (c : AgentConfig) :
    AgentConfig :=
  match u with
  | FieldUpdate.model v => { c with model := v, provider := providerForModel models v }
  | FieldUpdate.id v => { c with id := v }
  | FieldUpdate.name v => { c with name := v }
  | FieldUpdate.description v => { c with description := v }
  | FieldUpdate.provider v => { c with provider := v }
  | FieldUpdate.maxTokens v => { c with maxTokens := v }
  | FieldUpdate.temperature v => { c with temperature := v }
  | FieldUpdate.systemPrompt v => { c with systemPrompt := v }

/-- handleUpdateConfig, lines 47 to 57: map over the list, returning every
config whose id differs and rewriting the one that matches. -/
def handleUpdateConfig (models : List ModelInfo) (cs : List AgentConfig)
    (targetId : String) (u : FieldUpdate) : List AgentConfig :=
  cs.map (fun c => if c.id ≠ targetId then c else applyFieldUpdate models u c)

/-- The parsed form of a JSON document, as JSON.parse yields it: numbers
are modelled as Rat (JSON cannot spell the non-finite doubles), objects as
ordered field lists. -/
inductive Json where
  | null
  | bool (b : Bool)
  | num (q : Rat)
  | str (s : String)
  | arr (xs : List Json)
  | obj (fields : List (String × Json))

/-- Property access on an object field list: the first field with the
asked name, if any. -/
def getField (fields : List (String × Json)) (k : String) : Option Json :=
  match fields with
  | [] => none
  | (k2, v) :: rest => if k2 = k then some v else getField rest k

/-- JavaScript truthiness of a JSON value: null, false, zero and the
empty string are falsy, every array and object is truthy. -/
def truthy : Json → Bool
  | Json.null => false
  | Json.bool b => b
  | Json.num q => if q = 0 then false else true
  | Json.str s => if s = "" then false else true
  | Json.arr _ => true
  | Json.obj _ => true

/-- The truthiness test the upload validation applies to the first parsed
element: reading its id field and asking whether the value is truthy.
Reading a field of a non-object either gives undefined or (for null)
throws inside the try block; both land in the same rejection, so the test
is false there. -/
def firstIdTruthy : Json → Bool
  | Json.obj fields =>
    match getField fields "id" with
    | some v => truthy v
    | none => false
  | _ => false

/-- A string field of a parsed config element; a missing or differently
typed field is normalised to the empty string. The source casts without
looking, so this projection only diverges from it on elements no exported
configuration produces. -/
def jsonString (j : Option Json) : String :=
  match j with
  | some (Json.str s) => s
  | _ => ""

/-- A numeric field of a parsed config element, normalised to zero when
missing or differently typed, as jsonString is. -/
def jsonNum (j : Option Json) : Rat :=
  match j with
  | some (Json.num q) => q
  | _ => 0

/-- One parsed element read back as an AgentConfig, mirroring the cast the
upload handler performs on each array element. -/
def decodeConfig (j : Json) : AgentConfig :=
  match j with
  | Json.obj fields =>
    { id := jsonString (getField fields "id")
      name := jsonString (getField fields "name")
      description := jsonString (getField fields "description")
      provider := jsonString (getField fields "provider")
      model := jsonString (getField fields "model")
      maxTokens := jsonNum (getField fields "maxTokens")
      temperature := jsonNum (getField fields "temperature")
      systemPrompt := jsonString (getField fields "systemPrompt") }
  | _ =>
    { id := "", name := "", description := "", provider := "", model := "",
      maxTokens := 0, temperature := 0, systemPrompt := "" }

/-- JSON.stringify of one config, field for field. -/
def encodeConfig (c : AgentConfig) : Json :=
  Json.obj [("id", Json.str c.id), ("name", Json.str c.name),
    ("description", Json.str c.description), ("provider", Json.str c.provider),
    ("model", Json.str c.model), ("maxTokens", Json.num c.maxTokens),
    ("temperature", Json.num c.temperature), ("systemPrompt", Json.str c.systemPrompt)]

/-- handleDownloadSettings, lines 59 to 68: the document written out is
the config list serialized in order. -/
def exportSettings (cs : List AgentConfig) : Json :=
  Json.arr (cs.map encodeConfig)

/-- How an upload ends: the configurations replaced, or the rejection
logged as a failed parse. -/
inductive UploadOutcome where
  | success
  | serializationError
deriving DecidableEq

/-- handleUploadSettings, lines 70 to 88, on an already read file: the
payload is none when JSON.parse throws on the text; a parsed value is
accepted when it is a non-empty array whose first element has a truthy id,
and then replaces the config list wholesale; every other case leaves the
current list as it is. -/
def handleUploadSettings (payload : Option Json) (current : List AgentConfig) :
    List AgentConfig × UploadOutcome :=
  match payload with
  | none => (current, UploadOutcome.serializationError)
  | some j =>
    match j with
    | Json.arr (x :: rest) =>
      if firstIdTruthy x then
        ((x :: rest).map decodeConfig, UploadOutcome.success)
      else
        (current, UploadOutcome.serializationError)
    | _ => (current, UploadOutcome.serializationError)

/-- The states the pipeline session can be in: the initial App state (any
default config list, an empty results map, 60 mana, 1200 experience)
closed under the four mutating operations of the component. -/
inductive Reachable : PipelineState → Prop where
  | init (cfgs : List AgentConfig) :
      Reachable { agentConfigs := cfgs, results := fun _ => none,
                  mana := 60, experience := 1200 }
  | run (gi now : String) (pr : ProviderOutcome) (i : Nat) (s : PipelineState) :
      Reachable s → Reachable (executeAgent gi pr now s i).1
  | save (agentId newText : String) (s : PipelineState) :
      Reachable s → Reachable (overrideOutput s agentId newText)
  | updateCfg (models : List ModelInfo) (targetId : String) (u : FieldUpdate)
      (s : PipelineState) : Reachable s →
      Reachable { s with agentConfigs := handleUpdateConfig models s.agentConfigs targetId u }
  | upload (payload : Option Json) (s : PipelineState) :
      Reachable s →
      Reachable { s with agentConfigs := (handleUploadSettings payload s.agentConfigs).1 }

/-- The shape every stored result record keeps: a timestamp only together
with status completed, no timestamp and no error message alongside status
running, no timestamp alongside status error, and no error message
alongside status completed. -/
def ResultWf (r : AgentResult) : Prop :=
  (r.timestamp.isSome → r.status = some StatusV.completed)
  ∧ (r.status = some StatusV.running → r.timestamp = none ∧ r.error = none)
  ∧ (r.status = some StatusV.error → r.timestamp = none)
  ∧ (r.status = some StatusV.completed → r.error = none)

/-! ### Claim C6 -/

/-- Claim C6: running step 0 while the externally supplied seed text is
empty or whitespace-only (its trim is the empty string) ends in the
validation failure and returns the state unchanged, so the mana pool keeps
its value and no step result is touched. -/
theorem step0_empty_seed_validation (gi now : String) (pr : ProviderOutcome)
    (s : PipelineState) (config : AgentConfig)
    (hc : s.agentConfigs[0]? = some config)
    (ht : jsTrim gi = "") :
    executeAgent gi pr now s 0 = (s, RunOutcome.validationError) := by
  simp [executeAgent, resolveInput, hc, ht]

/-- A concrete step configuration used by the closed instances below. -/
def sampleCfg (i : String) : AgentConfig :=
  { id := i, name := "Agent", description := "d", provider := "gemini",
    model := "m", maxTokens := 100, temperature := 1, systemPrompt := "p" }

/-- A fresh session whose pipeline is one step with id a0. -/
def freshState : PipelineState :=
  { agentConfigs := [sampleCfg "a0"], results := fun _ => none,
    mana := 60, experience := 1200 }

/-- Concrete instance of claim C6: a one-step pipeline, a seed of blanks,
full mana; the run is rejected as a validation failure with the state
returned as it was. -/
theorem step0_empty_seed_validation_witness :
    executeAgent "   " (ProviderOutcome.success "resp") "t" freshState 0
      = (freshState, RunOutcome.validationError) :=
  step0_empty_seed_validation "   " "t" (ProviderOutcome.success "resp") _ _ rfl (by decide)

/-! ### Claim C1 -/

/-- A two-step pipeline in its fresh session state. -/
def twoStepState : PipelineState :=
  { agentConfigs := [sampleCfg "a0", sampleCfg "a1"], results := fun _ => none,
    mana := 60, experience := 1200 }

/-- The session after step 0 ran once successfully (output x) and then was
re-run with a provider failure: step 0 now stores status error while its
output x is preserved. -/
def staleErrorState : PipelineState :=
  (executeAgent "seed" (ProviderOutcome.failure "boom") "t2"
    (executeAgent "seed" (ProviderOutcome.success "x") "t1" twoStepState 0).1 0).1

/-- Counterexample to claim C1 as stated: in the reachable state where
step 0 holds status error with the non-empty preserved output x, running
step 1 does not fail with the dependency error; it completes and debits
20 mana, because the source only tests that the previous result exists
and has a non-empty output, never its status. -/
theorem dependency_claim_counterexample :
    Reachable staleErrorState
    ∧ (staleErrorState.results "a0").map AgentResult.status = some (some StatusV.error)
    ∧ staleErrorState.mana = 20
    ∧ (executeAgent "seed" (ProviderOutcome.success "resp") "t3" staleErrorState 1).2
        = RunOutcome.completed
    ∧ (executeAgent "seed" (ProviderOutcome.success "resp") "t3" staleErrorState 1).1.mana
        = 0 := by
  refine ⟨?_, ?_, ?_, ?_, ?_⟩
  · exact Reachable.run _ _ _ _ _ (Reachable.run _ _ _ _ _ (Reachable.init _))
  · rfl
  · rfl
  · rfl
  · rfl

/-- Claim C1 amended: for a step index i above zero, the run fails
immediately with the dependency error exactly when the previous step has
no stored result or its stored output is the empty string (the stored
status is not consulted); in that case nothing is debited and no result
is written, the state being returned unchanged. -/
theorem dependency_check_ignores_status (gi now : String) (pr : ProviderOutcome)
    (s : PipelineState) (i : Nat) (config prevCfg : AgentConfig)
    (hi : i ≠ 0)
    (hc : s.agentConfigs[i]? = some config)
    (hp : s.agentConfigs[i - 1]? = some prevCfg)
    (hd : s.results prevCfg.id = none
          ∨ ∃ r, s.results prevCfg.id = some r ∧ r.output = "") :
    executeAgent gi pr now s i = (s, RunOutcome.dependencyError) := by
  have hres : resolveInput gi s i = none := by
    unfold resolveInput
    rw [if_neg hi, hp]
    rcases hd with h | ⟨r, hr, ho⟩
    · simp [h]
    · simp [hr, ho]
  simp [executeAgent, hc, hres]

/-- Concrete instance of the amended claim C1: in a fresh two-step session
step 1 has no stored upstream result, so its run is rejected as a
dependency failure with the state unchanged. -/
theorem dependency_check_witness :
    executeAgent "seed" (ProviderOutcome.success "r") "t" twoStepState 1
      = (twoStepState, RunOutcome.dependencyError) :=
  dependency_check_ignores_status "seed" "t" (ProviderOutcome.success "r")
    twoStepState 1 (sampleCfg "a1") (sampleCfg "a0") (by decide) rfl rfl (Or.inl rfl)

/-! ### Claim C3 -/

/-- Mana stays non-negative across one engine invocation: every branch
either returns the pool untouched or ends in an updateStats write, whose
Math.max clamp is bounded below by zero. -/
theorem executeAgent_mana_nonneg (gi now : String) (pr : ProviderOutcome)
    (s : PipelineState) (i : Nat) (h : 0 ≤ s.mana) :
    0 ≤ (executeAgent gi pr now s i).1.mana := by
  unfold executeAgent
  split
  · exact h
  · split
    · exact h
    · split
      · exact h
      · split
        · exact h
        · split
          · split
            · simp [updateStats]
            · simp [updateStats]
          · simp [updateStats]

/-- Claim C3: a run that resolves and validates its input but finds the
pool below the cost of 20 ends as the resource failure with the whole
state unchanged (no debit, no result written); and over every reachable
session state the pool is never below zero. -/
theorem resource_gate_refusal_and_floor :
    (∀ (gi now : String) (pr : ProviderOutcome) (s : PipelineState) (i : Nat)
      (config : AgentConfig) (inp : String),
      s.agentConfigs[i]? = some config →
      resolveInput gi s i = some inp →
      ¬ jsTrim inp = "" →
      s.mana < 20 →
      executeAgent gi pr now s i = (s, RunOutcome.resourceError))
    ∧ (∀ s : PipelineState, Reachable s → 0 ≤ s.mana) := by
  constructor
  · intro gi now pr s i config inp hc hin hval hlt
    simp [executeAgent, hc, hin, hval, hlt]
  · intro s h
    induction h with
    | init cfgs => norm_num
    | run gi now pr i s hs ih => exact executeAgent_mana_nonneg gi now pr s i ih
    | save agentId newText s hs ih => exact ih
    | updateCfg models targetId u s hs ih => exact ih
    | upload payload s hs ih => exact ih

/-- A session whose pool is 15, below the cost of one run. -/
def lowManaState : PipelineState :=
  { agentConfigs := [sampleCfg "a0"], results := fun _ => none,
    mana := 15, experience := 0 }

/-- Concrete instance of claim C3: with pool 15 and a non-empty seed the
run of step 0 is refused as a resource failure, the state unchanged; and
the fresh session satisfies the floor. -/
theorem resource_gate_witness :
    executeAgent "seed" (ProviderOutcome.success "r") "t" lowManaState 0
      = (lowManaState, RunOutcome.resourceError)
    ∧ 0 ≤ freshState.mana :=
  ⟨resource_gate_refusal_and_floor.1 "seed" "t" (ProviderOutcome.success "r")
      lowManaState 0 (sampleCfg "a0") "seed" rfl rfl (by decide) (by decide),
   resource_gate_refusal_and_floor.2 freshState (Reachable.init _)⟩

/-! ### Claim C2 -/

/-- Claim C2: once a run has resolved its input, passed validation and
passed the resource check, the pool ends exactly 20 lower whatever the
provider outcome is (the debit precedes the call and is never refunded),
and the experience counter gains exactly 50 on a non-empty response and
exactly 0 on an empty response or a transport failure. -/
theorem run_cost_and_reward (gi now : String) (s : PipelineState) (i : Nat)
    (config : AgentConfig) (inp : String)
    (hc : s.agentConfigs[i]? = some config)
    (hin : resolveInput gi s i = some inp)
    (hval : ¬ jsTrim inp = "")
    (hm : ¬ s.mana < 20) :
    (∀ pr : ProviderOutcome, (executeAgent gi pr now s i).1.mana = s.mana - 20)
    ∧ (∀ r : String, r ≠ "" →
        (executeAgent gi (ProviderOutcome.success r) now s i).1.experience
          = s.experience + 50)
    ∧ (executeAgent gi (ProviderOutcome.success "") now s i).1.experience = s.experience
    ∧ (∀ m : String,
        (executeAgent gi (ProviderOutcome.failure m) now s i).1.experience
          = s.experience) := by
  refine ⟨?_, ?_, ?_, ?_⟩
  · intro pr
    cases pr with
    | success r =>
      by_cases hr : r = ""
      · subst hr
        simp [executeAgent, hc, hin, hval, hm, updateStats]
        omega
      · simp [executeAgent, hc, hin, hval, hm, hr, updateStats]
        omega
    | failure m =>
      simp [executeAgent, hc, hin, hval, hm, updateStats]
      omega
  · intro r hr
    simp [executeAgent, hc, hin, hval, hm, hr, updateStats]
  · simp [executeAgent, hc, hin, hval, hm, updateStats]
  · intro m
    simp [executeAgent, hc, hin, hval, hm, updateStats]

/-- Concrete instance of claim C2: from the fresh session, a successful
run of step 0 leaves the pool at 60 minus 20, and a failed run leaves the
experience counter where it was. -/
theorem run_cost_and_reward_witness :
    (executeAgent "seed" (ProviderOutcome.success "r") "t" freshState 0).1.mana
      = freshState.mana - 20
    ∧ (executeAgent "seed" (ProviderOutcome.failure "x") "t" freshState 0).1.experience
      = freshState.experience := by
  have h := run_cost_and_reward "seed" "t" freshState 0 (sampleCfg "a0") "seed"
    rfl rfl (by decide) (by decide)
  exact ⟨h.1 (ProviderOutcome.success "r"), h.2.2.2 "x"⟩

/-! ### Claim C4 -/

/-- Reading back one serialized config reproduces it field for field. -/
theorem decodeConfig_encodeConfig (c : AgentConfig) : decodeConfig (encodeConfig c) = c := by
  rfl

/-- Counterexample to claim C4 as stated: the empty pipeline is a pipeline
of (vacuously) valid step configs, yet uploading its own export is
rejected as a serialization failure and leaves the current list in place,
because the upload validation demands a non-empty array. -/
theorem settings_roundtrip_counterexample :
    handleUploadSettings (some (exportSettings ([] : List AgentConfig))) [sampleCfg "a0"]
      = ([sampleCfg "a0"], UploadOutcome.serializationError)
    ∧ handleUploadSettings (some (exportSettings ([] : List AgentConfig))) [sampleCfg "a0"]
      ≠ (([] : List AgentConfig), UploadOutcome.success) := by
  exact ⟨rfl, by decide⟩

/-- Claim C4 amended: for every non-empty pipeline whose first config has
a non-empty (truthy) id, uploading the exported document replaces the
current list with exactly the original ordered configs, field for field. -/
theorem settings_roundtrip (current cs : List AgentConfig) (c : AgentConfig)
    (hid : c.id ≠ "") :
    handleUploadSettings (some (exportSettings (c :: cs))) current
      = (c :: cs, UploadOutcome.success) := by
  have htru : firstIdTruthy (encodeConfig c) = true := by
    simp [firstIdTruthy, encodeConfig, getField, truthy, hid]
  have hcomp : (decodeConfig ∘ encodeConfig) = id := funext decodeConfig_encodeConfig
  simp [handleUploadSettings, exportSettings, htru, decodeConfig_encodeConfig, hcomp]

/-- Concrete instance of the amended claim C4: the one-step pipeline
survives the export and upload unchanged. -/
theorem settings_roundtrip_witness :
    handleUploadSettings (some (exportSettings [sampleCfg "a0"])) []
      = ([sampleCfg "a0"], UploadOutcome.success) :=
  settings_roundtrip [] [] (sampleCfg "a0") (by decide)

/-! ### Claim C5 -/

/-- Claim C5 amended: an upload whose payload fails to parse, is not an
array, is the empty array, or whose first element has no truthy id (the
field missing, or holding a falsy value such as the empty string) is
rejected as a serialization failure with the current list untouched;
a payload passing that validation replaces the list with exactly the
parsed sequence, independent of what was there before. -/
theorem upload_validation :
    (∀ current : List AgentConfig,
      handleUploadSettings none current = (current, UploadOutcome.serializationError))
    ∧ (∀ (j : Json) (current : List AgentConfig), (∀ xs, j ≠ Json.arr xs) →
      handleUploadSettings (some j) current = (current, UploadOutcome.serializationError))
    ∧ (∀ current : List AgentConfig,
      handleUploadSettings (some (Json.arr [])) current
        = (current, UploadOutcome.serializationError))
    ∧ (∀ (x : Json) (xs : List Json) (current : List AgentConfig),
      firstIdTruthy x = false →
      handleUploadSettings (some (Json.arr (x :: xs))) current
        = (current, UploadOutcome.serializationError))
    ∧ (∀ (x : Json) (xs : List Json) (current : List AgentConfig),
      firstIdTruthy x = true →
      handleUploadSettings (some (Json.arr (x :: xs))) current
        = ((x :: xs).map decodeConfig, UploadOutcome.success)) := by
  refine ⟨fun current => rfl, ?_, fun current => rfl, ?_, ?_⟩
  · intro j current hj
    cases j with
    | arr xs => exact absurd rfl (hj xs)
    | null => rfl
    | bool b => rfl
    | num q => rfl
    | str s => rfl
    | obj fields => rfl
  · intro x xs current hx
    simp [handleUploadSettings, hx]
  · intro x xs current hx
    simp [handleUploadSettings, hx]

/-- Counterexample to claim C5 as stated: a well-formed, non-empty array
whose first element does carry an id field (so it is none of the listed
rejection cases) is still rejected when that id is the empty string,
because the source tests JavaScript truthiness of the value, not the
presence of the field. -/
theorem upload_truthy_id_counterexample :
    getField [("id", Json.str "")] "id" = some (Json.str "")
    ∧ firstIdTruthy (Json.obj [("id", Json.str "")]) = false
    ∧ handleUploadSettings (some (Json.arr [Json.obj [("id", Json.str "")]]))
        [sampleCfg "a0"]
      = ([sampleCfg "a0"], UploadOutcome.serializationError) := by
  exact ⟨rfl, rfl, rfl⟩

/-- Concrete instances of the amended claim C5: a failed parse and an
empty array each leave the current list in place. -/
theorem upload_validation_witness :
    handleUploadSettings none [sampleCfg "a0"]
      = ([sampleCfg "a0"], UploadOutcome.serializationError)
    ∧ handleUploadSettings (some (Json.arr [])) []
      = (([] : List AgentConfig), UploadOutcome.serializationError) :=
  ⟨upload_validation.1 [sampleCfg "a0"], upload_validation.2.2.1 []⟩

/-! ### Claim C7 -/

/-- Claim C7: updating the model field of the config with the matching id
writes the model, recomputes the provider from the table (the entry for
the new model when one exists and table providers are non-empty, the
gemini fallback when none exists), leaves every other field of that config
alone, leaves every non-matching config alone, and is the identity when no
config carries the target id. -/
theorem update_model_recomputes_provider (models : List ModelInfo)
    (cs : List AgentConfig) (targetId v : String)
    (hprov : ∀ m ∈ models, m.provider ≠ "") :
    ((∀ c ∈ cs, c.id ≠ targetId) →
      handleUpdateConfig models cs targetId (FieldUpdate.model v) = cs)
    ∧ (handleUpdateConfig models cs targetId (FieldUpdate.model v)).length = cs.length
    ∧ (∀ (k : Nat) (c : AgentConfig), cs[k]? = some c → c.id ≠ targetId →
        (handleUpdateConfig models cs targetId (FieldUpdate.model v))[k]? = some c)
    ∧ (∀ (k : Nat) (c : AgentConfig), cs[k]? = some c → c.id = targetId →
        ∃ c2, (handleUpdateConfig models cs targetId (FieldUpdate.model v))[k]? = some c2
          ∧ c2.model = v
          ∧ (models.find? (fun m => m.id == v) = none → c2.provider = "gemini")
          ∧ (∀ m, models.find? (fun m2 => m2.id == v) = some m → c2.provider = m.provider)
          ∧ c2.id = c.id ∧ c2.name = c.name ∧ c2.description = c.description
          ∧ c2.maxTokens = c.maxTokens ∧ c2.temperature = c.temperature
          ∧ c2.systemPrompt = c.systemPrompt) := by
  refine ⟨?_, by simp [handleUpdateConfig], ?_, ?_⟩
  · intro h
    have heach : ∀ c ∈ cs,
        (if c.id ≠ targetId then c else applyFieldUpdate models (FieldUpdate.model v) c)
          = id c := by
      intro c hc
      simp [h c hc]
    calc handleUpdateConfig models cs targetId (FieldUpdate.model v)
        = cs.map id := List.map_congr_left heach
      _ = cs := List.map_id cs
  · intro k c hk hne
    simp [handleUpdateConfig, hk, hne]
  · intro k c hk heq
    refine ⟨applyFieldUpdate models (FieldUpdate.model v) c, ?_, rfl, ?_, ?_,
      rfl, rfl, rfl, rfl, rfl, rfl⟩
    · simp [handleUpdateConfig, hk, heq]
    · intro hnone
      simp [applyFieldUpdate, providerForModel, hnone]
    · intro m hm
      have hne : m.provider ≠ "" := hprov m (List.mem_of_find?_eq_some hm)
      simp [applyFieldUpdate, providerForModel, hm, hne]

/-- The model table used by the closed instance of claim C7. -/
def tableW : List ModelInfo :=
  [{ id := "m1", name := "Model One", provider := "openai" }]

/-- Concrete instance of claim C7: a model update addressed at an id no
config carries leaves the list unchanged. -/
theorem update_model_witness :
    handleUpdateConfig tableW [sampleCfg "a0"] "zz" (FieldUpdate.model "m1")
      = [sampleCfg "a0"] := by
  have h := update_model_recomputes_provider tableW [sampleCfg "a0"] "zz" "m1" (by decide)
  exact h.1 (by decide)

/-! ### Claim C8 -/

/-- Claim C8: handleSaveOutput on a step with a stored result rewrites
only its output field, whatever its status is: status, error message and
timestamp are kept, every other stored result is untouched, and the config
list and both counters are exactly as before. -/
theorem override_output_frame (s : PipelineState) (stepId newText : String)
    (r : AgentResult) (h : s.results stepId = some r) :
    (∃ r2, (overrideOutput s stepId newText).results stepId = some r2
      ∧ r2.output = newText ∧ r2.status = r.status ∧ r2.error = r.error
      ∧ r2.timestamp = r.timestamp)
    ∧ (∀ k, k ≠ stepId → (overrideOutput s stepId newText).results k = s.results k)
    ∧ (overrideOutput s stepId newText).mana = s.mana
    ∧ (overrideOutput s stepId newText).experience = s.experience
    ∧ (overrideOutput s stepId newText).agentConfigs = s.agentConfigs := by
  refine ⟨⟨{ r with output := newText }, ?_, rfl, rfl, rfl, rfl⟩, ?_, rfl, rfl, rfl⟩
  · simp [overrideOutput, handleSaveOutput, h]
  · intro k hk
    simp [overrideOutput, handleSaveOutput, hk]

/-- Concrete instance of claim C8: correcting the stored output of the
failed step 0 rewrites the output while the pool, the counter and the
stored status and error stay as they were. -/
theorem override_output_witness :
    ((overrideOutput staleErrorState "a0" "fixed").results "a0").map AgentResult.output
      = some "fixed"
    ∧ (overrideOutput staleErrorState "a0" "fixed").mana = staleErrorState.mana
    ∧ ((overrideOutput staleErrorState "a0" "fixed").results "a0").map AgentResult.status
      = some (some StatusV.error) := by
  obtain ⟨⟨r2, hr2, ho, hs, he, ht⟩, hframe, hm, hx, hcfg⟩ :=
    override_output_frame staleErrorState "a0" "fixed" (errorRecord "x" "boom") rfl
  refine ⟨?_, hm, ?_⟩
  · rw [hr2]
    simp [ho]
  · rw [hr2]
    simp [hs, errorRecord]

/-! ### Claim C9 -/

/-- A one-step session frozen at the instant step 0 is mid-flight: its
stored record is the running record with the preserved previous output. -/
def midRunState : PipelineState :=
  { agentConfigs := [sampleCfg "a0"],
    results := fun k => if k = "a0" then some (runningRecord "prev") else none,
    mana := 60, experience := 1200 }

/-- Counterexample to claim C9 as stated: with step 0 stored as running,
invoking the engine function executeAgent directly performs a full second
execution: it debits 20 mana, rewrites the stored record and reaches the
provider, because executeAgent itself never tests for the running status;
only the run button in the rendering layer does. -/
theorem run_reentrancy_counterexample :
    (midRunState.results "a0").map AgentResult.status = some (some StatusV.running)
    ∧ (executeAgent "seed" (ProviderOutcome.success "resp") "t" midRunState 0).1.mana = 40
    ∧ (executeAgent "seed" (ProviderOutcome.success "resp") "t" midRunState 0).2
        = RunOutcome.completed
    ∧ (executeAgent "seed" (ProviderOutcome.success "resp") "t" midRunState 0).1.results "a0"
        = some (completedRecord "resp" "t") := by
  exact ⟨rfl, rfl, rfl, rfl⟩

/-- Claim C9 amended: re-entrant runs are prevented at the only invocation
point rather than inside the engine: the run button is disabled while the
displayed status is running, so a click on a running step is ignored with
no debit, no state write and no provider call; executeAgent itself, called
directly in that state, runs again (see the counterexample). -/
theorem click_run_ignores_running (gi now : String) (pr : ProviderOutcome)
    (s : PipelineState) (i : Nat) (config : AgentConfig) (r : AgentResult)
    (hc : s.agentConfigs[i]? = some config)
    (hr : s.results config.id = some r)
    (hrun : r.status = some StatusV.running) :
    clickRun gi pr now s i = (s, RunOutcome.ignoredRunning) := by
  simp [clickRun, hc, hr, hrun]

/-- Concrete instance of the amended claim C9: clicking run on the
mid-flight step leaves the session untouched. -/
theorem click_run_ignores_running_witness :
    clickRun "seed" (ProviderOutcome.success "resp") "t" midRunState 0
      = (midRunState, RunOutcome.ignoredRunning) :=
  click_run_ignores_running "seed" "t" (ProviderOutcome.success "resp") midRunState 0
    (sampleCfg "a0") (runningRecord "prev") rfl rfl rfl

/-! ### Claim C10 -/

/-- The running record satisfies the record shape: no timestamp and no
error message are written with it. -/
theorem runningRecord_wf (o : String) : ResultWf (runningRecord o) := by
  simp [ResultWf, runningRecord]

/-- The completed record satisfies the record shape: it carries the
timestamp together with status completed and no error message. -/
theorem completedRecord_wf (resp now : String) : ResultWf (completedRecord resp now) := by
  simp [ResultWf, completedRecord]

/-- The error record satisfies the record shape: the message is written
with status error and without a timestamp. -/
theorem errorRecord_wf (o msg : String) : ResultWf (errorRecord o msg) := by
  simp [ResultWf, errorRecord]

/-- Writing one well-shaped record keeps every stored record well
shaped. -/
theorem setResult_wf {res : String → Option AgentResult} {id0 : String}
    {rec : AgentResult}
    (hres : ∀ id r, res id = some r → ResultWf r) (hrec : ResultWf rec) :
    ∀ id r, setResult res id0 rec id = some r → ResultWf r := by
  intro id r h
  unfold setResult at h
  by_cases hk : id = id0
  · rw [if_pos hk] at h
    injection h with h2
    exact h2 ▸ hrec
  · rw [if_neg hk] at h
    exact hres id r h

/-- One engine invocation keeps every stored record well shaped: each
branch writes nothing, or writes the running record followed by the
completed or error record. -/
theorem executeAgent_preserves_wf (gi now : String) (pr : ProviderOutcome)
    (s : PipelineState) (i : Nat)
    (h : ∀ id r, s.results id = some r → ResultWf r) :
    ∀ id r, (executeAgent gi pr now s i).1.results id = some r → ResultWf r := by
  unfold executeAgent
  split
  · exact h
  · split
    · exact h
    · split
      · exact h
      · split
        · exact h
        · split
          · split
            · exact setResult_wf (setResult_wf h (runningRecord_wf _)) (errorRecord_wf _ _)
            · exact setResult_wf (setResult_wf h (runningRecord_wf _)) (completedRecord_wf _ _)
          · exact setResult_wf (setResult_wf h (runningRecord_wf _)) (errorRecord_wf _ _)

/-- A manual output edit keeps every stored record well shaped: for an
existing record only the output changes, and the record created for a
missing entry carries no status, no error and no timestamp. -/
theorem saveOutput_wf {res : String → Option AgentResult} (agentId newText : String)
    (hres : ∀ id r, res id = some r → ResultWf r) :
    ∀ id r, handleSaveOutput res agentId newText id = some r → ResultWf r := by
  intro id r h
  unfold handleSaveOutput at h
  by_cases hk : id = agentId
  · rw [if_pos hk] at h
    injection h with h2
    cases hcase : res agentId with
    | some r0 =>
      rw [hcase] at h2
      have h0 := hres agentId r0 hcase
      exact h2 ▸ h0
    | none =>
      rw [hcase] at h2
      subst h2
      simp [ResultWf]
  · rw [if_neg hk] at h
    exact hres id r h

/-- Every reachable session keeps every stored record well shaped. -/
theorem reachable_results_wf :
    ∀ s : PipelineState, Reachable s → ∀ id r, s.results id = some r → ResultWf r := by
  intro s h
  induction h with
  | init cfgs =>
    intro id r h0
    exact absurd h0 (by simp)
  | run gi now pr i s hs ih => exact executeAgent_preserves_wf gi now pr s i ih
  | save agentId newText s hs ih => exact saveOutput_wf agentId newText ih
  | updateCfg models targetId u s hs ih => exact ih
  | upload payload s hs ih => exact ih

/-- Claim C10: in every reachable session state, a stored result carries a
timestamp only when its status is completed (a running or error record
never has one, and the running record also drops any previous error
message, as the completed record does); moreover a failed run of a step
that passed all checks rewrites its record to exactly the error record:
the old output preserved, the failure message recorded, the timestamp of
any previous successful completion dropped. -/
theorem result_record_invariants (s : PipelineState) (hs : Reachable s) :
    (∀ id r, s.results id = some r →
      (r.timestamp.isSome → r.status = some StatusV.completed)
      ∧ (r.status = some StatusV.running → r.timestamp = none ∧ r.error = none)
      ∧ (r.status = some StatusV.error → r.timestamp = none)
      ∧ (r.status = some StatusV.completed → r.error = none))
    ∧ (∀ (gi now msg inp : String) (i : Nat) (config : AgentConfig),
        s.agentConfigs[i]? = some config →
        resolveInput gi s i = some inp →
        ¬ jsTrim inp = "" →
        ¬ s.mana < 20 →
        (executeAgent gi (ProviderOutcome.failure msg) now s i).2
          = RunOutcome.providerError msg
        ∧ (executeAgent gi (ProviderOutcome.failure msg) now s i).1.results config.id
          = some (errorRecord (storedOutput s config.id) msg)) := by
  constructor
  · exact fun id r h => reachable_results_wf s hs id r h
  · intro gi now msg inp i config hc hin hval hm
    constructor
    · simp [executeAgent, hc, hin, hval, hm]
    · simp [executeAgent, hc, hin, hval, hm, setResult, storedOutput,
        runningRecord, updateStats]

/-- The fresh session after one successful run of step 0. -/
def completedRunState : PipelineState :=
  (executeAgent "seed" (ProviderOutcome.success "out") "ts" freshState 0).1

/-- Concrete instance of claim C10: the record stored by the successful
run carries a timestamp and indeed has status completed. -/
theorem result_record_invariants_witness :
    completedRunState.results "a0" = some (completedRecord "out" "ts")
    ∧ ((completedRecord "out" "ts").timestamp.isSome →
        (completedRecord "out" "ts").status = some StatusV.completed) := by
  have h := result_record_invariants completedRunState
    (Reachable.run "seed" "ts" (ProviderOutcome.success "out") 0 freshState
      (Reachable.init [sampleCfg "a0"]))
  exact ⟨rfl, (h.1 "a0" (completedRecord "out" "ts") rfl).1⟩

end FdaPipeline
